import Mathlib

/-!
Shallow embedding of `madsim-tonic`'s server (`src/madsim-tonic/src/transport/server.rs`).

The embedded fragment is the `Router`: its service registry (`add_service`,
a `HashMap<&'static str, Box<dyn Service<...>>>`), and the dispatch loop of
`serve_with_shutdown` / `serve`:

* each loop iteration runs `select_biased!` with the `ep.accept1()` arm
  written first and the shutdown `signal` arm second, so when both are ready
  the accept arm is taken;
* on an accepted connection, one `rx.recv()` obtains the first message; a
  receive error makes the loop `continue` (the connection is skipped);
* the first message is downcast to `(PathAndQuery, BoxMessage)`, and a failed
  downcast panics with "invalid type";
* the payload is classified: if it does not downcast to `()`, the request
  stream yields exactly that payload once (`stream::once`); otherwise it is
  the stream marker and the request stream re-receives from `rx` until a
  receive error (`try_stream! { while let Ok(msg) = rx.recv().await ... }`);
* the service name is `path.path().split('/').nth(1).unwrap()`, looked up in
  the registry with `.get_mut(..).unwrap()` (both unwraps panic on `None`);
* `poll_ready` and `call` have error type `Infallible`, and their results are
  unwrapped; a spawned task drains the response stream, sending each item in
  order over `tx`, unwrapping each send result.

Machine-level aspects are modelled as data: a connection carries the finite
list of its receive outcomes; the scheduler is a finite list of poll events
recording, for each completed `select_biased!`, which arms were ready.
-/

/-- Status code of a gRPC-style error (`tonic::Status`); the dispatch layer
never constructs one, handlers put them in the response stream. -/
inductive Status : Type where
  | notFound : Status
  | other : Nat → Status
deriving DecidableEq, Repr

/-- Path component of `tonic`'s `PathAndQuery`, as the list of its
characters (the source only ever reads `path.path()`). -/
structure PathAndQuery : Type where
  path : List Char
deriving DecidableEq, Repr

/-- A type-erased message (`BoxMessage = Box<dyn Any + Send>`): the runtime
shapes the dispatch code inspects are a boxed `(PathAndQuery, BoxMessage)`
envelope, a boxed `()` (the stream marker), and any other payload (opaque
domain data, identified here by a number). -/
inductive BoxMessage : Type where
  | pair : PathAndQuery → BoxMessage → BoxMessage
  | unitMsg : BoxMessage
  | data : Nat → BoxMessage
deriving DecidableEq, Repr

/-- Outcome of `msg.downcast::<(PathAndQuery, BoxMessage)>()`: succeeds
exactly on the envelope shape. -/
def downcastPair : BoxMessage → Option (PathAndQuery × BoxMessage)
  | .pair p m => some (p, m)
  | _ => none

/-- Outcome of `msg.downcast_ref::<()>().is_some()`: the payload is the
stream-marker sentinel `()`. -/
def isUnitMsg : BoxMessage → Bool
  | .unitMsg => true
  | _ => false

deriving instance DecidableEq for Except

/-- One item of a `BoxMessageStream`: `Result<BoxMessage, Status>`. -/
abbrev CallResult : Type := Except Status BoxMessage

/-- One outcome of `rx.recv()`: a message, or a receive error (peer close or
transport error, not further distinguished). -/
abbrev RecvResult : Type := Except Unit BoxMessage

/-- A registered service (`Box<dyn Service<(SocketAddr, PathAndQuery,
BoxMessageStream), Response = BoxMessageStream, Error = Infallible>>`).
`SocketAddr` is opaque to the dispatch code and embedded as a number; the
error type `Infallible` is embedded as `Empty`. `ready` is the settled
result of `poll_ready`, `call` the settled result of awaiting the returned
future on given peer, path and request stream. -/
structure BoxService : Type where
  ready : Except Empty Unit
  call : Nat → PathAndQuery → List CallResult → Except Empty (List CallResult)

/-- The `services` field of `Router`: an association list with `HashMap`
key semantics (keys unique, `insert` replaces). -/
abbrev Registry : Type := List (List Char × BoxService)

/-- `HashMap::insert` as performed by `Router::add_service` (line 197,
`self.services.insert(S::NAME, Box::new(svc))`): replace the entry with the
same key if present, otherwise append a new entry. -/
def insertSvc (name : List Char) (svc : BoxService) : Registry → Registry
  | [] => [(name, svc)]
  | (n, s) :: rest =>
    if n = name then (name, svc) :: rest else (n, s) :: insertSvc name svc rest

/-- `HashMap::get_mut` on the registry. -/
def lookupSvc : Registry → List Char → Option BoxService
  | [], _ => none
  | (n, s) :: rest, name => if n = name then some s else lookupSvc rest name

/-- The `.unwrap()` of a `Result<A, Infallible>`: total, because the error
type is uninhabited — the panicking branch is unreachable. -/
def unwrapInfallible {α : Type} : Except Empty α → α
  | .ok a => a
  | .error e => e.elim

/-- Rust `str::split(c)` on a character list: splits at every occurrence of
`c`, keeping empty pieces ("".split(c) is [""], leading/trailing/adjacent
separators produce empty pieces). -/
def splitChar (c : Char) : List Char → List (List Char)
  | [] => [[]]
  | x :: xs =>
    if x = c then [] :: splitChar c xs
    else
      match splitChar c xs with
      | [] => [[x]]
      | p :: ps => (x :: p) :: ps

/-- The routing key of line 246: `path.path().split('/').nth(1)` — the text
between the leading '/' and the next '/' (or end). `none` models the
`.unwrap()` panic when no second segment exists. -/
def svcNameOf (p : PathAndQuery) : Option (List Char) :=
  (splitChar '/' p.path).get? 1

/-- Registry resolution of a path: extract the service-name segment and look
it up (lines 246-247, before their unwraps). -/
def resolveService (reg : Registry) (p : PathAndQuery) : Option BoxService :=
  (svcNameOf p).bind (lookupSvc reg)

/-- Messages yielded by the stream-marker branch's `try_stream!`: re-receive
until a receive error; an exhausted outcome list means the channel is closed,
which is also a receive error. -/
def streamConsume : List RecvResult → List BoxMessage
  | [] => []
  | .error _ :: _ => []
  | .ok m :: rest => m :: streamConsume rest

/-- Number of `rx.recv()` calls the stream-marker branch performs on the
given outcome list (each yielded message is one pull, the terminating error
one more). -/
def streamPulls : List RecvResult → Nat
  | [] => 0
  | .error _ :: _ => 1
  | .ok _ :: rest => 1 + streamPulls rest

/-- The request classifier (lines 231-242): given the first payload and the
remaining receive outcomes of the connection, the list of request messages
handed to the service together with how many further `rx.recv()` pulls were
made. A non-marker payload is a single request — the stream is
`stream::once(Ok(msg))` and `rx` is not pulled again; the marker payload
makes a request stream that re-receives until error. -/
def requestsOf (first : BoxMessage) (rest : List RecvResult) :
    List BoxMessage × Nat :=
  if isUnitMsg first then (streamConsume rest, streamPulls rest)
  else ([first], 0)

/-- An accepted connection as `accept1` returns it: the peer address and the
sequence of outcomes its receive channel will produce. (The send channel is
modelled separately, by the send-success schedule of `respondTask`.) -/
structure Conn : Type where
  peer : Nat
  recvs : List RecvResult
deriving DecidableEq, Repr

/-- Whether the connection's first `rx.recv()` (line 222) fails: no outcome
available (channel closed) or an error outcome first. -/
def firstRecvFails (c : Conn) : Bool :=
  match c.recvs with
  | [] => true
  | .error _ :: _ => true
  | .ok _ :: _ => false

/-- The distinct panics the dispatch code can hit: the `.expect("invalid
type")` on the envelope downcast (line 228), the `.unwrap()` on
`split('/').nth(1)` (line 246), and the `.unwrap()` on the registry lookup
(line 247). -/
inductive Panic : Type where
  | invalidType : Panic
  | noServiceSegment : Panic
  | serviceNotFound : Panic
deriving DecidableEq, Repr

/-- Record of one successful dispatch: what the service was invoked with and
the response stream it returned. -/
structure DispatchedCall : Type where
  peer : Nat
  path : PathAndQuery
  svcName : List Char
  requests : List CallResult
  pulls : Nat
  responses : List CallResult
deriving DecidableEq, Repr

/-- Outcome of one iteration of the dispatch loop. -/
inductive StepOutcome : Type where
  | stopped : StepOutcome
  | fatal : StepOutcome
  | skipped : StepOutcome
  | panicked : Panic → StepOutcome
  | dispatched : DispatchedCall → StepOutcome
deriving DecidableEq, Repr

/-- Processing of one accepted connection (lines 222-257): first receive
(`continue` on error), envelope downcast (panic on wrong type), request
classification, service-name extraction and registry lookup (both panic on
`None`), readiness and invocation (infallible, unwraps total). -/
def dispatchConn (reg : Registry) (c : Conn) : StepOutcome :=
  match c.recvs with
  | [] => .skipped
  | .error _ :: _ => .skipped
  | .ok m :: rest =>
    match downcastPair m with
    | none => .panicked .invalidType
    | some (path, payload) =>
      let reqs := requestsOf payload rest
      match svcNameOf path with
      | none => .panicked .noServiceSegment
      | some name =>
        match lookupSvc reg name with
        | none => .panicked .serviceNotFound
        | some svc =>
          let _ := unwrapInfallible svc.ready
          let rsps :=
            unwrapInfallible (svc.call c.peer path (reqs.1.map Except.ok))
          .dispatched
            ⟨c.peer, path, name, reqs.1.map Except.ok, reqs.2, rsps⟩

/-- The service name a step invoked, if any. -/
def invokedService : StepOutcome → Option (List Char)
  | .dispatched d => some d.svcName
  | _ => none

/-- One completed `select_biased!` (lines 218-221): either the accept future
is ready — with its result, and a flag recording whether the shutdown signal
happened to be ready at the same poll — or only the shutdown signal is
ready. (If neither arm is ready the loop stays suspended and no event is
recorded.) -/
inductive PollEvent : Type where
  | accept : Except Unit Conn → Bool → PollEvent
  | signalOnly : PollEvent
deriving Repr

/-- The branch `select_biased!` takes: arms are polled in the order written,
`ep.accept1()` first and `signal` second, so whenever the accept future is
ready its arm runs regardless of the signal; an accept error is returned
(`?`), the signal arm returns `Ok(())`. -/
def selectStep (reg : Registry) : PollEvent → StepOutcome
  | .accept (.error _) _ => .fatal
  | .accept (.ok c) _ => dispatchConn reg c
  | .signalOnly => .stopped

/-- The dispatch loop of `serve_with_shutdown` over a finite schedule of
poll events: skipped and dispatched iterations continue the loop; a stop
(shutdown, `return Ok(())`), an accept error (`return Err`) or a panic
terminates the trace. -/
def serveTrace (reg : Registry) : List PollEvent → List StepOutcome
  | [] => []
  | e :: es =>
    match selectStep reg e with
    | .skipped => .skipped :: serveTrace reg es
    | .dispatched d => .dispatched d :: serveTrace reg es
    | o => [o]

/-- The schedule `serve` runs under: `serve` calls `serve_with_shutdown(addr,
pending::<()>())` (line 204), and `pending` is never ready, so every
completed select resolves through the accept arm with the signal arm not
ready. -/
def pendingSchedule (accepts : List (Except Unit Conn)) : List PollEvent :=
  accepts.map (fun r => .accept r false)

/-- `Router::serve` (lines 203-205): `serve_with_shutdown` with a
never-ready signal. -/
def serve (reg : Registry) (accepts : List (Except Unit Conn)) :
    List StepOutcome :=
  serveTrace reg (pendingSchedule accepts)

/-- The spawned response task (lines 250-257): pull the response stream and
send each item over `tx`, unwrapping each send result. `ok i` tells whether
the i-th send succeeds; the first failing send delivers nothing further and
panics the task (second component `true`). Returns the items actually
delivered to the peer, in order. -/
def respondTask : List CallResult → (Nat → Bool) → List CallResult × Bool
  | [], _ => ([], false)
  | r :: rs, ok =>
    if ok 0 then
      let rest := respondTask rs (fun n => ok (n + 1))
      (r :: rest.1, rest.2)
    else ([], true)

/-- A concrete echo service: ready, and its response stream repeats the
request stream. -/
def echoSvc : BoxService :=
  ⟨.ok (), fun _ _ reqs => .ok reqs⟩

/-- A concrete registry holding only the echo service under "echo". -/
def exReg : Registry := [("echo".data, echoSvc)]

/-- The path `/echo/Get`. -/
def exPath : PathAndQuery := ⟨"/echo/Get".data⟩

/-- A concrete unary connection to `/echo/Get` with payload `data 7`. -/
def exConn : Conn := ⟨1, [.ok (.pair exPath (.data 7))]⟩

/-- The dispatch record `exConn` produces against `exReg`. -/
def exCall : DispatchedCall :=
  ⟨1, exPath, "echo".data, [.ok (.data 7)], 0, [.ok (.data 7)]⟩

/-- A concrete connection addressing the unregistered path `/missing/Get`. -/
def missingConn : Conn := ⟨2, [.ok (.pair ⟨"/missing/Get".data⟩ (.data 7))]⟩


/-- A second concrete service, used for re-registration: always responds
with an empty stream. -/
def nilSvc : BoxService :=
  ⟨.ok (), fun _ _ _ => .ok []⟩

/-- A concrete connection whose first receive errors. -/
def errConn : Conn := ⟨3, [Except.error ()]⟩

/-- The keys of a registry. -/
def regKeys (reg : Registry) : List (List Char) := reg.map Prod.fst

instance : Inhabited BoxService := ⟨nilSvc⟩

theorem dispatchConn_ne_stopped (reg : Registry) (c : Conn) :
    dispatchConn reg c ≠ StepOutcome.stopped := by
  unfold dispatchConn
  repeat' split
  all_goals simp

theorem splitChar_no_sep (c : Char) (m : List Char) :
    ∀ s : List Char, (∀ x ∈ s, x ≠ c) →
      splitChar c (s ++ c :: m) = s :: splitChar c m := by
  intro s
  induction s with
  | nil =>
    intro _
    simp [splitChar]
  | cons x xs ih =>
    intro h
    have hx : x ≠ c := h x (List.mem_cons_self x xs)
    have hxs : ∀ y ∈ xs, y ≠ c := fun y hy => h y (List.mem_cons_of_mem x hy)
    rw [List.cons_append, splitChar, if_neg hx, ih hxs]

theorem streamConsume_spec (junk : List RecvResult) :
    ∀ msgs : List BoxMessage,
      streamConsume (msgs.map Except.ok ++ Except.error () :: junk) = msgs := by
  intro msgs
  induction msgs with
  | nil => rfl
  | cons m ms ih => simp [streamConsume, ih]

theorem streamPulls_spec (junk : List RecvResult) :
    ∀ msgs : List BoxMessage,
      streamPulls (msgs.map Except.ok ++ Except.error () :: junk) =
        msgs.length + 1 := by
  intro msgs
  induction msgs with
  | nil => rfl
  | cons m ms ih => simp [streamPulls, ih]; omega

theorem respondTask_all_ok :
    ∀ (l : List CallResult) (ok : Nat → Bool), (∀ i, ok i = true) →
      respondTask l ok = (l, false) := by
  intro l
  induction l with
  | nil => intro ok h; rfl
  | cons r rs ih =>
    intro ok h
    simp [respondTask, h 0, ih (fun n => ok (n + 1)) (fun n => h (n + 1))]

theorem lookupSvc_insertSvc (name : List Char) (svc : BoxService) :
    ∀ reg : Registry, lookupSvc (insertSvc name svc reg) name = some svc := by
  intro reg
  induction reg with
  | nil => simp [insertSvc, lookupSvc]
  | cons e rest ih =>
    obtain ⟨n, s⟩ := e
    by_cases h : n = name
    · simp [insertSvc, h, lookupSvc]
    · simp [insertSvc, h, lookupSvc, ih]

theorem insertSvc_cons_eq (name : List Char) (svc s : BoxService)
    (rest : Registry) :
    insertSvc name svc ((name, s) :: rest) = (name, svc) :: rest := by
  simp [insertSvc]

theorem insertSvc_cons_ne (name : List Char) (svc s : BoxService)
    (n : List Char) (rest : Registry) (h : n ≠ name) :
    insertSvc name svc ((n, s) :: rest) = (n, s) :: insertSvc name svc rest := by
  simp [insertSvc, h]

theorem regKeys_cons (n : List Char) (s : BoxService) (rest : Registry) :
    regKeys ((n, s) :: rest) = n :: regKeys rest := rfl

theorem mem_keys_insertSvc (name : List Char) (svc : BoxService)
    (x : List Char) : ∀ reg : Registry,
      x ∈ regKeys (insertSvc name svc reg) ↔ x = name ∨ x ∈ regKeys reg := by
  intro reg
  induction reg with
  | nil => simp [insertSvc, regKeys]
  | cons e rest ih =>
    obtain ⟨n, s⟩ := e
    by_cases h : n = name
    · subst h
      rw [insertSvc_cons_eq, regKeys_cons, regKeys_cons]
      simp only [List.mem_cons]
      tauto
    · rw [insertSvc_cons_ne _ _ _ _ _ h, regKeys_cons, regKeys_cons]
      simp only [List.mem_cons, ih]
      tauto

theorem nodup_keys_insertSvc (name : List Char) (svc : BoxService) :
    ∀ reg : Registry,
      (regKeys reg).Nodup → (regKeys (insertSvc name svc reg)).Nodup := by
  intro reg
  induction reg with
  | nil => intro _; simp [insertSvc, regKeys]
  | cons e rest ih =>
    obtain ⟨n, s⟩ := e
    intro hnd
    rw [regKeys_cons, List.nodup_cons] at hnd
    by_cases h : n = name
    · subst h
      rw [insertSvc_cons_eq, regKeys_cons, List.nodup_cons]
      exact hnd
    · rw [insertSvc_cons_ne _ _ _ _ _ h, regKeys_cons, List.nodup_cons]
      refine ⟨?_, ih hnd.2⟩
      intro hmem
      rcases (mem_keys_insertSvc name svc n rest).mp hmem with h' | h'
      · exact h h'
      · exact hnd.1 h'

theorem count_keys_insertSvc (name : List Char) (svc : BoxService) :
    ∀ reg : Registry, (regKeys reg).Nodup →
      (regKeys (insertSvc name svc reg)).count name = 1 := by
  intro reg
  induction reg with
  | nil => intro _; simp [insertSvc, regKeys]
  | cons e rest ih =>
    obtain ⟨n, s⟩ := e
    intro hnd
    rw [regKeys_cons, List.nodup_cons] at hnd
    by_cases h : n = name
    · subst h
      rw [insertSvc_cons_eq, regKeys_cons, List.count_cons_self,
        List.count_eq_zero_of_not_mem hnd.1]
    · rw [insertSvc_cons_ne _ _ _ _ _ h, regKeys_cons,
        List.count_cons_of_ne (fun hh => h hh.symm), ih hnd.2]

theorem stopped_notin_trace (reg : Registry) : ∀ evs : List PollEvent,
    PollEvent.signalOnly ∉ evs →
      StepOutcome.stopped ∉ serveTrace reg evs := by
  intro evs
  induction evs with
  | nil => intro _; simp [serveTrace]
  | cons e es ih =>
    intro h
    have he : e ≠ PollEvent.signalOnly := fun hh => h (hh ▸ List.mem_cons_self _ _)
    have hes : PollEvent.signalOnly ∉ es := fun hh => h (List.mem_cons_of_mem _ hh)
    have hse : selectStep reg e ≠ .stopped := by
      cases e with
      | accept r b =>
        cases r with
        | error _ => simp [selectStep]
        | ok c => simpa [selectStep] using dispatchConn_ne_stopped reg c
      | signalOnly => exact absurd rfl he
    cases hsel : selectStep reg e with
    | stopped => exact absurd hsel hse
    | fatal => simp [serveTrace, hsel]
    | panicked p => simp [serveTrace, hsel]
    | skipped =>
      simp [serveTrace, hsel]
      exact ih hes
    | dispatched d =>
      simp [serveTrace, hsel]
      exact ih hes

theorem dispatchConn_dispatched (reg : Registry) (c : Conn)
    (d : DispatchedCall) (h : dispatchConn reg c = .dispatched d) :
    ∃ svc, lookupSvc reg d.svcName = some svc ∧
      d.responses = unwrapInfallible (svc.call d.peer d.path d.requests) := by
  obtain ⟨peer, recvs⟩ := c
  cases recvs with
  | nil => exact absurd h (by simp [dispatchConn])
  | cons x rest =>
    cases x with
    | error e => exact absurd h (by simp [dispatchConn])
    | ok m =>
      cases m with
      | unitMsg => exact absurd h (by simp [dispatchConn, downcastPair])
      | data n => exact absurd h (by simp [dispatchConn, downcastPair])
      | pair p payload =>
        simp only [dispatchConn, downcastPair] at h
        cases hn : svcNameOf p with
        | none =>
          simp only [hn] at h
          exact StepOutcome.noConfusion h
        | some name =>
          simp only [hn] at h
          cases hl : lookupSvc reg name with
          | none =>
            simp only [hl] at h
            exact StepOutcome.noConfusion h
          | some svc =>
            simp only [hl, StepOutcome.dispatched.injEq] at h
            subst h
            exact ⟨svc, hl, rfl⟩

/-- C1, as stated, is false on the code: at a poll where the accept future
and the shutdown signal are both ready (`PollEvent.accept (.ok exConn)
true`), the loop accepts and dispatches the connection instead of returning
`Ok(())` — the trace is a dispatch, not the shutdown stop. -/
theorem shutdown_tie_cex :
    serveTrace exReg [PollEvent.accept (Except.ok exConn) true] =
      [StepOutcome.dispatched exCall] ∧
    serveTrace exReg [PollEvent.accept (Except.ok exConn) true] ≠
      [StepOutcome.stopped] := by
  constructor
  · rfl
  · decide

/-- C1 (amended): `select_biased!` lists the accept arm before the signal
arm, so whenever both are simultaneously ready the ACCEPT branch is taken
(the signal's readiness is ignored); the loop takes the shutdown transition
only at a poll where the accept future is not ready and only the signal is. -/
theorem accept_wins_tie (reg : Registry) (r : Except Unit Conn) :
    selectStep reg (.accept r true) = selectStep reg (.accept r false) ∧
    ∀ e : PollEvent, selectStep reg e = .stopped ↔ e = .signalOnly := by
  constructor
  · cases r <;> rfl
  · intro e
    cases e with
    | accept r' b =>
      cases r' with
      | error _ => simp [selectStep]
      | ok c => simp [selectStep, dispatchConn_ne_stopped reg c]
    | signalOnly => simp [selectStep]

/-- C2: the code, not the claim, is at fault — at the failing input (a call
to the unregistered path `/missing/Get` against a registry holding only
"echo") the registry lookup's `.unwrap()` panics, aborting the serving
process instead of answering with a single `Err(NotFound)` item. -/
theorem unregistered_service_panics :
    dispatchConn exReg missingConn = .panicked .serviceNotFound ∧
    serveTrace exReg [PollEvent.accept (Except.ok missingConn) false] =
      [StepOutcome.panicked Panic.serviceNotFound] :=
  ⟨rfl, rfl⟩

/-- C3: a first payload that is not the stream-marker sentinel makes a
request sequence yielding exactly that payload once with zero further
channel pulls; the stream-marker payload makes a sequence that re-receives,
yielding each received message until the receive error that terminates it. -/
theorem classifier_unary_vs_stream (first : BoxMessage)
    (rest : List RecvResult) (msgs : List BoxMessage)
    (junk : List RecvResult) :
    (isUnitMsg first = false → requestsOf first rest = ([first], 0)) ∧
    (isUnitMsg first = true →
      requestsOf first (msgs.map Except.ok ++ Except.error () :: junk) =
        (msgs, msgs.length + 1)) := by
  constructor
  · intro h
    simp [requestsOf, h]
  · intro h
    simp [requestsOf, h, streamConsume_spec, streamPulls_spec]

/-- C4: a connection whose first receive errors is skipped — no service is
invoked, nothing is propagated, and the loop continues with the remaining
schedule. -/
theorem recv_error_skips (reg : Registry) (c : Conn) (b : Bool)
    (es : List PollEvent) (h : firstRecvFails c = true) :
    dispatchConn reg c = .skipped ∧
    invokedService (dispatchConn reg c) = none ∧
    serveTrace reg (.accept (.ok c) b :: es) = .skipped :: serveTrace reg es := by
  have hd : dispatchConn reg c = .skipped := by
    cases hc : c.recvs with
    | nil => simp [dispatchConn, hc]
    | cons x tl =>
      cases x with
      | error e => simp [dispatchConn, hc]
      | ok m => simp [firstRecvFails, hc] at h
  refine ⟨hd, ?_, ?_⟩
  · rw [hd]
    rfl
  · simp [serveTrace, selectStep, hd]

/-- Witness for C4 at the concrete connection `errConn`, whose only receive
outcome is an error. -/
theorem recv_error_skips_witness :
    dispatchConn exReg errConn = .skipped ∧
    invokedService (dispatchConn exReg errConn) = none ∧
    serveTrace exReg (.accept (.ok errConn) false :: []) =
      .skipped :: serveTrace exReg [] :=
  recv_error_skips exReg errConn false [] (by decide)

/-- C5: `serve` is `serve_with_shutdown` under the never-ready signal
schedule, and its trace never contains the shutdown stop — the loop never
returns `Ok(())`, running until the schedule ends, a transport error, or a
panic. -/
theorem serve_never_stops (reg : Registry)
    (accepts : List (Except Unit Conn)) :
    serve reg accepts = serveTrace reg (pendingSchedule accepts) ∧
    StepOutcome.stopped ∉ serve reg accepts := by
  refine ⟨rfl, ?_⟩
  apply stopped_notin_trace
  simp [pendingSchedule]

/-- C6: registering twice under one name leaves the registry mapping the
name to the second handler, with no duplicate entry: the name's key count is
one and keys stay unique. -/
theorem add_service_last_write_wins (reg : Registry) (name : List Char)
    (h1 h2 : BoxService) (hnd : (regKeys reg).Nodup) :
    lookupSvc (insertSvc name h2 (insertSvc name h1 reg)) name = some h2 ∧
    (regKeys (insertSvc name h2 (insertSvc name h1 reg))).Nodup ∧
    (regKeys (insertSvc name h2 (insertSvc name h1 reg))).count name = 1 := by
  refine ⟨lookupSvc_insertSvc _ _ _, ?_, ?_⟩
  · exact nodup_keys_insertSvc _ _ _ (nodup_keys_insertSvc _ _ _ hnd)
  · exact count_keys_insertSvc _ _ _ (nodup_keys_insertSvc _ _ _ hnd)

/-- Witness for C6: registering `nilSvc` then `echoSvc` under "echo" in the
empty registry resolves "echo" to `echoSvc`, once. -/
theorem add_service_last_write_wins_witness :
    lookupSvc (insertSvc "echo".data echoSvc
      (insertSvc "echo".data nilSvc [])) "echo".data = some echoSvc ∧
    (regKeys (insertSvc "echo".data echoSvc
      (insertSvc "echo".data nilSvc []))).Nodup ∧
    (regKeys (insertSvc "echo".data echoSvc
      (insertSvc "echo".data nilSvc []))).count "echo".data = 1 :=
  add_service_last_write_wins [] "echo".data nilSvc echoSvc (by decide)

/-- C7: the routing key is exactly the text between the leading '/' and the
next '/', so two paths sharing the service segment but differing in the
method segment resolve to the same registry entry. -/
theorem lookup_uses_first_segment (reg : Registry) (s mX mY : List Char)
    (hs : ∀ x ∈ s, x ≠ '/') :
    svcNameOf ⟨'/' :: (s ++ '/' :: mX)⟩ = some s ∧
    resolveService reg ⟨'/' :: (s ++ '/' :: mX)⟩ =
      resolveService reg ⟨'/' :: (s ++ '/' :: mY)⟩ := by
  have key : ∀ m : List Char, svcNameOf ⟨'/' :: (s ++ '/' :: m)⟩ = some s := by
    intro m
    have h1 : splitChar '/' ('/' :: (s ++ '/' :: m)) =
        [] :: splitChar '/' (s ++ '/' :: m) := by
      simp [splitChar]
    simp only [svcNameOf, h1, splitChar_no_sep '/' m s hs]
    rfl
  refine ⟨key mX, ?_⟩
  simp [resolveService, key mX, key mY]

/-- Witness for C7 at `/svcA/methodX` and `/svcA/methodY`. -/
theorem lookup_uses_first_segment_witness :
    svcNameOf ⟨'/' :: ("svcA".data ++ '/' :: "methodX".data)⟩ =
      some "svcA".data ∧
    resolveService exReg ⟨'/' :: ("svcA".data ++ '/' :: "methodX".data)⟩ =
      resolveService exReg ⟨'/' :: ("svcA".data ++ '/' :: "methodY".data)⟩ :=
  lookup_uses_first_segment exReg "svcA".data "methodX".data "methodY".data
    (by decide)

/-- C8: a dispatched call's response list is exactly what the resolved
handler returned, and the spawned task delivers exactly those items, in
order, when every send succeeds. -/
theorem response_stream_order (reg : Registry) (c : Conn)
    (d : DispatchedCall) (ok : Nat → Bool)
    (hd : dispatchConn reg c = .dispatched d) (hok : ∀ i, ok i = true) :
    (∃ svc, lookupSvc reg d.svcName = some svc ∧
      d.responses = unwrapInfallible (svc.call d.peer d.path d.requests)) ∧
    respondTask d.responses ok = (d.responses, false) :=
  ⟨dispatchConn_dispatched reg c d hd, respondTask_all_ok d.responses ok hok⟩

/-- Witness for C8 at the concrete dispatched call `exCall` with an
always-succeeding send channel. -/
theorem response_stream_order_witness :
    (∃ svc, lookupSvc exReg exCall.svcName = some svc ∧
      exCall.responses =
        unwrapInfallible (svc.call exCall.peer exCall.path exCall.requests)) ∧
    respondTask exCall.responses (fun _ => true) = (exCall.responses, false) :=
  response_stream_order exReg exConn exCall (fun _ => true) rfl (fun _ => rfl)

/-- C9: the service error type is uninhabited (`Infallible`), so the
readiness result and the invocation result are always `Ok` — the unwraps in
the dispatch loop cannot hit an error branch for any registered handler. -/
theorem invocation_infallible (svc : BoxService) (peer : Nat)
    (p : PathAndQuery) (reqs : List CallResult) :
    svc.ready = Except.ok () ∧
    svc.call peer p reqs =
      Except.ok (unwrapInfallible (svc.call peer p reqs)) := by
  constructor
  · cases hr : svc.ready with
    | error e => exact e.elim
    | ok u => cases u; rfl
  · cases hc : svc.call peer p reqs with
    | error e => exact e.elim
    | ok rs => rfl

/-- C10: a first message that is received successfully but does not downcast
to a `(PathAndQuery, BoxMessage)` envelope panics the loop with "invalid
type" — it is not silently skipped, and the trace ends at the panic. -/
theorem bad_envelope_panics (reg : Registry) (peer : Nat) (m : BoxMessage)
    (rest : List RecvResult) (b : Bool) (es : List PollEvent)
    (h : downcastPair m = none) :
    dispatchConn reg ⟨peer, Except.ok m :: rest⟩ = .panicked .invalidType ∧
    dispatchConn reg ⟨peer, Except.ok m :: rest⟩ ≠ .skipped ∧
    serveTrace reg (.accept (.ok ⟨peer, Except.ok m :: rest⟩) b :: es) =
      [StepOutcome.panicked Panic.invalidType] := by
  have hd : dispatchConn reg ⟨peer, Except.ok m :: rest⟩ =
      .panicked .invalidType := by
    simp [dispatchConn, h]
  refine ⟨hd, ?_, ?_⟩
  · rw [hd]
    simp
  · simp [serveTrace, selectStep, hd]

/-- Witness for C10: a successfully delivered first message that is a bare
`()` rather than a path-message pair panics the dispatch. -/
theorem bad_envelope_panics_witness :
    dispatchConn exReg ⟨4, Except.ok BoxMessage.unitMsg :: []⟩ =
      .panicked .invalidType ∧
    dispatchConn exReg ⟨4, Except.ok BoxMessage.unitMsg :: []⟩ ≠ .skipped ∧
    serveTrace exReg
        (.accept (.ok ⟨4, Except.ok BoxMessage.unitMsg :: []⟩) false :: []) =
      [StepOutcome.panicked Panic.invalidType] :=
  bad_envelope_panics exReg 4 BoxMessage.unitMsg [] false [] rfl
